import Mathlib

/-!
# Verification of the serpy serialization engine

A shallow embedding of `src/serpy/serializer.py`: the compile-then-execute
serialization engine (field-map merging across an inheritance chain,
Meta-driven implicit field expansion, per-field compilation into accessor
tuples, and the execution routine `_serialize` / `to_value` / `data`).

Python values are modelled by the inductive `Value`; a zero-argument callable
returning `r` is modelled as `Value.vfun r`.  Python exceptions are modelled
by `PyErr` and fallible code returns `Except PyErr _`.  Python dicts are
modelled as association lists with insert-or-overwrite semantics
(`dictInsert`), which preserves insertion order exactly like CPython dicts.
-/

namespace Serpy

/-- A Python runtime value.  `vnone` is Python `None`; `vfun r` models a
zero-argument callable whose invocation returns `r`; `vdict` models both a
mapping and an object with named attributes (sufficient for the lookups the
engine performs). -/
inductive Value : Type where
  | vnone : Value
  | vint : Int → Value
  | vstr : String → Value
  | vbool : Bool → Value
  | vfun : Value → Value
  | vlist : List Value → Value
  | vdict : List (String × Value) → Value

/-- The Python exceptions the engine raises or catches.  `_serialize` catches
exactly `KeyError` and `AttributeError`; everything else propagates. -/
inductive PyErr : Type where
  | keyError : PyErr
  | attributeError : PyErr
  | typeError : PyErr
  | runtimeError : String → PyErr
deriving DecidableEq

/-- The output mapping built by `Serializer._serialize` (a Python dict). -/
abbrev Dict := List (String × Value)

/-- The result of `Serializer.to_value`: a single output mapping, or an
ordered sequence of them in batch (`many=True`) mode. -/
inductive Output : Type where
  | one : Dict → Output
  | col : List Dict → Output

/-- The runtime state of a `Serializer` instance: the wrapped source
instance, the `many` flag, and the `_data` memoization slot (`none` models
Python `None`, i.e. not yet computed). -/
structure Serializer : Type where
  inst : Value
  many : Bool
  data_ : Option Output

/-- A resolved extractor, as stored in a compiled field tuple.  Python keeps
one function slot and an arity convention; the `pass_self` flag decides
whether it is called as `getter(self, instance)` or `getter(instance)`.  The
two arities are the two constructors. -/
inductive Getter : Type where
  | noSelf : (Value → Except PyErr Value) → Getter
  | withSelf : (Serializer → Value → Except PyErr Value) → Getter

/-- The compiled per-field tuple produced by `_compile_field_to_tuple`:
`(name, getter, to_value, call, required, getter_takes_serializer)`. -/
structure CompiledField : Type where
  name : String
  getter : Getter
  to_value : Option (Value → Except PyErr Value)
  call : Bool
  required : Bool
  pass_self : Bool

/-- Python dict assignment `m[k] = v`: overwrite in place if the key exists
(keeping its position), otherwise append. -/
def dictInsert {α : Type} (m : List (String × α)) (k : String) (v : α) :
    List (String × α) :=
  if m.any (fun p => p.1 == k) then
    m.map (fun p => if p.1 == k then (k, v) else p)
  else
    m ++ [(k, v)]

/-- Python dict lookup `m[k]`, as an `Option`. -/
def dictLookup {α : Type} (m : List (String × α)) (k : String) : Option α :=
  (m.find? (fun p => p.1 == k)).map Prod.snd

/-- Python `m1.update(m2)`: insert every entry of `m2` into `m1`, in order. -/
def dictUpdate {α : Type} (m1 m2 : List (String × α)) : List (String × α) :=
  m2.foldl (fun acc p => dictInsert acc p.1 p.2) m1

/-- Invoking an extracted value with no arguments (`result()`).  Only a
callable can be invoked; anything else is a `TypeError`. -/
def callVal : Value → Except PyErr Value
  | .vfun r => .ok r
  | _ => .error .typeError

/-- `operator.attrgetter(n)`: read attribute `n`, raising `AttributeError`
when absent.  This is `Serializer.default_getter`. -/
def attrgetter (n : String) : Value → Except PyErr Value
  | .vdict m =>
    match dictLookup m n with
    | some v => .ok v
    | none => .error .attributeError
  | _ => .error .attributeError

/-- `operator.itemgetter(n)`: read key `n`, raising `KeyError` when absent.
This is `DictSerializer.default_getter`. -/
def itemgetter (n : String) : Value → Except PyErr Value
  | .vdict m =>
    match dictLookup m n with
    | some v => .ok v
    | none => .error .keyError
  | _ => .error .keyError

/-- One iteration of the loop body of `Serializer._serialize`, threading the
output dict `v`.  Mirrors the source exactly: the `pass_self` path calls the
getter with `(self, instance)` and stores the result directly; the default
path calls `getter(instance)`, catches `KeyError`/`AttributeError` (re-raise
if `required`, else `continue`), and applies call/transform only when
`required or result is not None`. -/
def serializeStep (self : Serializer) (inst : Value) (v : Dict)
    (f : CompiledField) : Except PyErr Dict :=
  if f.pass_self then
    match f.getter with
    | .withSelf g =>
      match g self inst with
      | .ok result => .ok (dictInsert v f.name result)
      | .error e => .error e
    | .noSelf _ => .error .typeError
  else
    match f.getter with
    | .noSelf g =>
      match g inst with
      | .error e =>
        if e = .keyError ∨ e = .attributeError then
          if f.required then .error e else .ok v
        else .error e
      | .ok result =>
        if f.required || !(result matches .vnone) then
          match (if f.call then callVal result else .ok result) with
          | .error e => .error e
          | .ok r1 =>
            match (match f.to_value with
                   | some tv => tv r1
                   | none => .ok r1) with
            | .error e => .error e
            | .ok r2 => .ok (dictInsert v f.name r2)
        else .ok (dictInsert v f.name result)
    | .withSelf _ => .error .typeError

/-- `Serializer._serialize(self, instance, fields)`: fold the loop body over
the compiled fields, starting from the empty dict. -/
def serialize (self : Serializer) (inst : Value)
    (fields : List CompiledField) : Except PyErr Dict :=
  fields.foldlM (serializeStep self inst) []

/-- `Serializer.to_value(self, instance)`: in `many` mode serialize each
element of the collection in iteration order; otherwise serialize the single
instance.  Iterating a non-list in `many` mode is a `TypeError`. -/
def toValue (fields : List CompiledField) (s : Serializer) :
    Except PyErr Output :=
  if s.many then
    match s.inst with
    | .vlist os => (os.mapM (fun o => serialize s o fields)).map Output.col
    | _ => .error .typeError
  else
    (serialize s s.inst fields).map Output.one

/-- The `Serializer.data` property: compute `to_value` on first access and
store it in `_data`; return the cached value on every later access.  State
passing makes the memoization slot explicit: the result pairs the returned
output with the (possibly updated) serializer. -/
def dataProp (fields : List CompiledField) (s : Serializer) :
    Except PyErr (Output × Serializer) :=
  match s.data_ with
  | none =>
    match toValue fields s with
    | .ok d => .ok (d, { s with data_ := some d })
    | .error e => .error e
  | some d => .ok (d, s)

/-! ## Field descriptors and per-field compilation -/

/-- Modelled from the spec: the Field Descriptor class (`serpy/fields.py` is
not under `src/`; only `serializer.py` is).  Per §3/§4.1 its construction
parameters map 1:1 onto attributes: `attr` is the source name (defaults to
the declared name), `label` the optional output rename, `call` and `required`
the flags, `custom_getter` the optional override extractor tagged with
`getter_takes_serializer`.  Per §4.2, `as_getter` yields the custom extractor
when present and `None` otherwise, and the value transform is compiled only
when the field type overrides the identity transform
(`_is_to_value_overridden`), which here is `to_value_override.isSome`. -/
structure Field : Type where
  attr : Option String := none
  label : Option String := none
  call : Bool := false
  required : Bool := true
  getter_takes_serializer : Bool := false
  custom_getter : Option Getter := none
  to_value_override : Option (Value → Except PyErr Value) := none

/-- `_compile_field_to_tuple(field, name, serializer_cls)`: resolve the
getter (`field.as_getter` result, else the class's `default_getter` applied
to `field.attr or name`), keep the transform only when overridden, rename to
`field.label or name`, and assemble the tuple. -/
def compileFieldToTuple (field : Field) (name : String)
    (dg : String → Value → Except PyErr Value) : CompiledField :=
  let getter := match field.custom_getter with
    | some g => g
    | none => Getter.noSelf (dg (field.attr.getD name))
  { name := field.label.getD name
    getter := getter
    to_value := field.to_value_override
    call := field.call
    required := field.required
    pass_self := field.getter_takes_serializer }

/-- A field map: output field name to Field descriptor (a Python dict). -/
abbrev FieldMap := List (String × Field)

/-- `SerializerMeta._compile_fields(field_map, serializer_cls)`. -/
def compileFields (field_map : FieldMap)
    (dg : String → Value → Except PyErr Value) : List CompiledField :=
  field_map.map (fun p => compileFieldToTuple p.2 p.1 dg)

/-! ## Field-map merging across the inheritance chain -/

/-- A class appearing in a serializer type's `__mro__`: whether it passes the
`issubclass(cls, SerializerBase)` test, and its `_field_map`. -/
structure PyClass : Type where
  isSerializerBaseSubclass : Bool
  field_map : FieldMap

/-- `SerializerMeta._get_fields(direct_fields, serializer_cls)`: walk
`__mro__[::-1]` (most ancestral first, given here as `mroRev`), folding each
`SerializerBase` subclass's `_field_map` into one dict, then overlay the
directly declared fields. -/
def getFields (direct_fields : FieldMap) (mroRev : List PyClass) : FieldMap :=
  let fm := mroRev.foldl
    (fun acc c =>
      if c.isSerializerBaseSubclass then dictUpdate acc c.field_map else acc)
    []
  dictUpdate fm direct_fields

/-! ## Meta handling: implicit field expansion -/

/-- An external model's field object (Django `model._meta.fields` element or
SQLAlchemy `model.__table__.columns` element): carries a `name`. -/
structure ModelField : Type where
  name : String
deriving DecidableEq

/-- A bound external model: a Django model (has `_meta`), an SQLAlchemy model
(has `__table__`), or something recognized by neither probe. -/
inductive ModelRef : Type where
  | django : List ModelField → ModelRef
  | sqlalchemy : List ModelField → ModelRef
  | plain : ModelRef
deriving DecidableEq

/-- The `Meta.fields` attribute: absent (`None`), the string `__all__`, or a
list of field-name strings. -/
inductive FieldsOpt : Type where
  | noneF : FieldsOpt
  | allF : FieldsOpt
  | names : List String → FieldsOpt
deriving DecidableEq

/-- Python truthiness of the `fields` attribute: `None` and `[]` are falsy;
`'__all__'` and a non-empty list are truthy. -/
def FieldsOpt.truthy : FieldsOpt → Bool
  | .noneF => false
  | .allF => true
  | .names l => !l.isEmpty

/-- Python truthiness of the `exclude` attribute (`None` or a list). -/
def excludeTruthy : Option (List String) → Bool
  | none => false
  | some l => !l.isEmpty

/-- A `class Meta:` declaration: `model`, `fields`, `exclude` (each read with
`getattr(meta, _, None)`). -/
structure MetaDecl : Type where
  model : Option ModelRef
  fields : FieldsOpt
  exclude : Option (List String)

/-- An element of the list `_get_implicit_fields` returns.  The return is
heterogeneous in Python: model field objects (which have `.name`) in the
`__all__` and exclude branches, raw strings in the inclusion-list branch. -/
inductive Implicit : Type where
  | mf : ModelField → Implicit
  | str : String → Implicit
deriving DecidableEq

/-- `SerializerMeta._get_implicit_fields(model_fields, fields, exclude)`:
`'__all__'` maps to all model fields; a falsy `fields` with a truthy
`exclude` maps to the model fields whose names are not excluded; otherwise
`fields` is returned unmodified (`none` models Python `None`). -/
def getImplicitFields (model_fields : List ModelField) (fields : FieldsOpt)
    (exclude : Option (List String)) : Option (List Implicit) :=
  if fields = .allF then
    some (model_fields.map Implicit.mf)
  else if fields.truthy = false ∧ excludeTruthy exclude = true then
    some ((model_fields.filter
      (fun f => !(exclude.getD []).contains f.name)).map Implicit.mf)
  else
    match fields with
    | .noneF => none
    | .allF => some (model_fields.map Implicit.mf)
    | .names l => some (l.map Implicit.str)

/-- The default `Field()` descriptor assigned to implicit names. -/
def defaultField : Field := {}

/-- `SerializerMeta._update_direct_fields(direct, explicit, implicit)`: give
every implicit field whose name is not already a key of `direct_fields` a
default `Field()`.  `explicit_fields` is `direct_fields.keys()` — a live
view, so membership is checked against the current dict.  Accessing `.name`
on a raw string raises `AttributeError`. -/
def updateDirectFields (direct : FieldMap) (implicit : List Implicit) :
    Except PyErr FieldMap :=
  implicit.foldlM
    (fun acc e =>
      match e with
      | .mf f =>
        if acc.any (fun p => p.1 == f.name) then .ok acc
        else .ok (dictInsert acc f.name defaultField)
      | .str _ => .error .attributeError)
    direct

/-- The Meta-handling block of `SerializerMeta.__new__`: validate the
`model`/`fields`/`exclude` configuration, probe the model kind, expand
implicit fields and merge them into the directly declared fields.  With no
`Meta`, the direct fields pass through unchanged. -/
def metaProcess (direct : FieldMap) (meta : Option MetaDecl) :
    Except PyErr FieldMap :=
  match meta with
  | none => .ok direct
  | some m =>
    match m.model with
    | none =>
      .error (.runtimeError
        "If you specifiy a Meta class, you need to specify a model")
    | some model =>
      if m.fields.truthy = false ∧ excludeTruthy m.exclude = false then
        .error (.runtimeError
          "You need to specifiy either `fields` or `exclude` in Meta")
      else if m.fields.truthy = true ∧ excludeTruthy m.exclude = true then
        .error (.runtimeError "`fields` and `exclude` prohibit each other.")
      else
        match model with
        | .django mfs =>
          match getImplicitFields mfs m.fields m.exclude with
          | some implicit => updateDirectFields direct implicit
          | none => .error .typeError
        | .sqlalchemy cols =>
          match getImplicitFields cols m.fields m.exclude with
          | some implicit => updateDirectFields direct implicit
          | none => .error .typeError
        | .plain =>
          .error (.runtimeError
            "Cannot deduce your fields from your model declaration")

/-- `SerializerMeta.__new__` after the direct-field scan: process the `Meta`
declaration, merge the field maps along the MRO, and compile the plan.
Returns the new class's `_field_map` and `_compiled_fields`. -/
def serializerMetaNew (mroRev : List PyClass) (direct : FieldMap)
    (meta : Option MetaDecl) (dg : String → Value → Except PyErr Value) :
    Except PyErr (FieldMap × List CompiledField) :=
  match metaProcess direct meta with
  | .error e => .error e
  | .ok direct2 =>
    let fm := getFields direct2 mroRev
    .ok (fm, compileFields fm dg)

/-! ## Spec-side description of field-map merging

The spec describes the merged field map by its lookup behaviour: the schema
type's own declaration wins, then nearer ancestors before more-ancestral
ones.  `specFieldLookup` transcribes those words; the refinement theorem for
the merge compares it with the source's `getFields`. -/

/-- Lookup along the ancestor chain by the spec's precedence: nearer
ancestors (later in `mroRev`, which is most-ancestral-first) win, and only
serializer classes carry fields. -/
def ancestorLookup : List PyClass → String → Option Field
  | [], _ => none
  | c :: t, n =>
    (ancestorLookup t n).orElse (fun _ =>
      if c.isSerializerBaseSubclass then dictLookup c.field_map n else none)

/-- The spec's words for the merged field map, as a lookup function: the
type's own directly declared field if present, else the nearest ancestor's
declaration. -/
def specFieldLookup (direct : FieldMap) (mroRev : List PyClass) (n : String) :
    Option Field :=
  (dictLookup direct n).orElse (fun _ => ancestorLookup mroRev n)

/-- Key uniqueness of an association list (always true of a Python dict). -/
abbrev keysNodup {α : Type} (m : List (String × α)) : Prop :=
  (m.map Prod.fst).Nodup

/-! ## Dictionary lemmas -/

theorem dictLookup_nil {α : Type} (k : String) :
    dictLookup ([] : List (String × α)) k = none := rfl

theorem dictLookup_cons {α : Type} (a : String) (b : α)
    (t : List (String × α)) (k : String) :
    dictLookup ((a, b) :: t) k =
      if a = k then some b else dictLookup t k := by
  simp only [dictLookup, List.find?_cons]
  by_cases h : a = k
  · simp [h]
  · simp [h, beq_eq_false_iff_ne.mpr h]

theorem dictLookup_append {α : Type} (m1 m2 : List (String × α)) (k : String) :
    dictLookup (m1 ++ m2) k =
      (dictLookup m1 k).orElse (fun _ => dictLookup m2 k) := by
  induction m1 with
  | nil => simp [dictLookup_nil, Option.orElse]
  | cons a t ih =>
    obtain ⟨a1, a2⟩ := a
    rw [List.cons_append, dictLookup_cons, dictLookup_cons]
    by_cases h : a1 = k
    · simp [h, Option.orElse]
    · simp [h, ih]

theorem dictLookup_eq_none_of_not_mem {α : Type} (m : List (String × α))
    (k : String) (h : m.any (fun p => p.1 == k) = false) :
    dictLookup m k = none := by
  induction m with
  | nil => rfl
  | cons a t ih =>
    obtain ⟨a1, a2⟩ := a
    simp only [List.any_cons, Bool.or_eq_false_iff] at h
    rw [dictLookup_cons]
    have h1 : ¬(a1 = k) := by
      intro hk
      simp [hk] at h
    simp [h1, ih h.2]

theorem dictLookup_map_overwrite {α : Type} (m : List (String × α))
    (k k' : String) (v : α) :
    dictLookup (m.map (fun p => if p.1 == k then (k, v) else p)) k' =
      if k' = k then
        (if m.any (fun p => p.1 == k) then some v else none)
      else dictLookup m k' := by
  induction m with
  | nil => simp [dictLookup_nil]
  | cons a t ih =>
    obtain ⟨a1, a2⟩ := a
    by_cases ha : a1 = k
    · simp only [List.map_cons, ha, beq_self_eq_true, if_true]
      rw [dictLookup_cons, dictLookup_cons]
      by_cases hk' : k' = k
      · simp [hk', ha]
      · have hkk' : ¬(k = k') := fun h => hk' h.symm
        simp only [hk', if_false, hkk', if_false, ha]
        rw [ih]
        simp [hk']
    · have hb : (a1 == k) = false := beq_eq_false_iff_ne.mpr ha
      simp only [List.map_cons, hb, Bool.false_eq_true, if_false]
      rw [dictLookup_cons, dictLookup_cons]
      by_cases hk' : a1 = k'
      · have : ¬(k' = k) := fun h => ha (hk'.trans h)
        simp [hk', this]
      · simp only [hk', if_false]
        rw [ih]
        simp only [List.any_cons, hb, Bool.false_or]

theorem dictLookup_dictInsert {α : Type} (m : List (String × α))
    (k k' : String) (v : α) :
    dictLookup (dictInsert m k v) k' =
      if k' = k then some v else dictLookup m k' := by
  unfold dictInsert
  by_cases hmem : m.any (fun p => p.1 == k) = true
  · simp only [hmem, if_true]
    rw [dictLookup_map_overwrite]
    simp [hmem]
  · simp only [Bool.not_eq_true] at hmem
    simp only [hmem, Bool.false_eq_true, if_false]
    rw [dictLookup_append, dictLookup_cons, dictLookup_nil]
    by_cases hk' : k' = k
    · subst hk'
      simp [dictLookup_eq_none_of_not_mem m k' hmem, Option.orElse]
    · have hkk' : ¬(k = k') := fun h => hk' h.symm
      simp only [hk', hkk', if_false]
      cases dictLookup m k' <;> rfl

theorem mem_keys_of_dictLookup_some {α : Type} {m : List (String × α)}
    {k : String} {x : α} (h : dictLookup m k = some x) :
    k ∈ m.map Prod.fst := by
  induction m with
  | nil => simp [dictLookup_nil] at h
  | cons a t ih =>
    obtain ⟨a1, a2⟩ := a
    rw [dictLookup_cons] at h
    by_cases ha : a1 = k
    · simp [ha]
    · simp only [ha, if_false] at h
      simp [ih h]

theorem dictLookup_dictUpdate {α : Type} (m1 m2 : List (String × α))
    (k : String) (h2 : keysNodup m2) :
    dictLookup (dictUpdate m1 m2) k =
      (dictLookup m2 k).orElse (fun _ => dictLookup m1 k) := by
  induction m2 generalizing m1 with
  | nil =>
    simp only [dictUpdate, List.foldl_nil, dictLookup_nil]
    cases dictLookup m1 k <;> rfl
  | cons a t ih =>
    obtain ⟨a1, a2⟩ := a
    simp only [keysNodup, List.map_cons, List.nodup_cons] at h2
    have hstep : dictUpdate m1 ((a1, a2) :: t) =
        dictUpdate (dictInsert m1 a1 a2) t := by
      simp [dictUpdate]
    rw [hstep, ih (dictInsert m1 a1 a2) h2.2, dictLookup_cons,
      dictLookup_dictInsert]
    cases hc : dictLookup t k with
    | some x =>
      have hk : a1 ≠ k := by
        intro hek
        exact h2.1 (hek ▸ mem_keys_of_dictLookup_some hc)
      simp [hk]
    | none =>
      by_cases ha : a1 = k
      · simp [ha]
      · have hka : ¬(k = a1) := fun h => ha h.symm
        simp only [hka, if_false, ha, if_false, Option.orElse]

/-- Lookup through the MRO fold of `_get_fields`: later (more derived)
classes win over earlier (more ancestral) ones, and the initial accumulator
is the fallback. -/
theorem dictLookup_mro_foldl (mro : List PyClass) (init : FieldMap)
    (n : String) (hm : ∀ c ∈ mro, keysNodup c.field_map) :
    dictLookup
      (mro.foldl
        (fun acc c =>
          if c.isSerializerBaseSubclass then dictUpdate acc c.field_map
          else acc)
        init) n =
      (ancestorLookup mro n).orElse (fun _ => dictLookup init n) := by
  induction mro generalizing init with
  | nil =>
    simp only [List.foldl_nil, ancestorLookup]
    cases dictLookup init n <;> rfl
  | cons c t ih =>
    rw [List.foldl_cons]
    have hc := hm c (List.mem_cons_self c t)
    have ht : ∀ c' ∈ t, keysNodup c'.field_map :=
      fun c' h => hm c' (List.mem_cons_of_mem c h)
    rw [ih _ ht, ancestorLookup]
    cases ha : ancestorLookup t n with
    | some x => rfl
    | none =>
      by_cases hsub : c.isSerializerBaseSubclass
      · simp only [hsub, if_true, Option.orElse]
        rw [dictLookup_dictUpdate init c.field_map n hc]
        rfl
      · simp only [hsub, Bool.false_eq_true, if_false, Option.orElse]

/-- Folding the serialization loop over an appended plan runs the prefix
first and continues from its output dict. -/
theorem exceptBind_ok {ε α β : Type} (b : α) (f : α → Except ε β) :
    (Except.ok b : Except ε α).bind f = f b := rfl

theorem exceptBind_error {ε α β : Type} (e : ε) (f : α → Except ε β) :
    (Except.error e : Except ε α).bind f = Except.error e := rfl

theorem foldlM_append_except {α β ε : Type} (l1 l2 : List α)
    (f : β → α → Except ε β) (b : β) :
    (l1 ++ l2).foldlM f b =
      (l1.foldlM f b).bind (fun b2 => l2.foldlM f b2) := by
  induction l1 generalizing b with
  | nil => rfl
  | cons a t ih =>
    simp only [List.cons_append, List.foldlM_cons]
    cases hba : f b a with
    | ok b2 => exact ih b2
    | error e => rfl

/-! ## Claim theorems -/

/-- **C1**: a field compiled with the default (non-schema-passing) extractor,
executed against a source on which that extractor raises a missing
key/attribute error, propagates the error to the caller when the field is
required; when it is not required the output dict is left exactly as the
earlier fields built it, so the field's output name is not set (in
particular it is absent, not present-with-null, whenever no other field uses
that name). -/
theorem default_extractor_missing_value (self : Serializer) (inst : Value)
    (field : Field) (declaredName : String)
    (dg : String → Value → Except PyErr Value) (e : PyErr)
    (pre : List CompiledField) (v : Dict)
    (hcg : field.custom_getter = none)
    (hps : field.getter_takes_serializer = false)
    (he : e = PyErr.keyError ∨ e = PyErr.attributeError)
    (hmiss : dg (field.attr.getD declaredName) inst = .error e)
    (post : List CompiledField)
    (hpre : pre.foldlM (serializeStep self inst) ([] : Dict) = .ok v) :
    serialize self inst
      (pre ++ compileFieldToTuple field declaredName dg :: post) =
      (if field.required then .error e
       else post.foldlM (serializeStep self inst) v) := by
  unfold serialize
  rw [foldlM_append_except, hpre, exceptBind_ok]
  simp only [List.foldlM_cons]
  have hstep : serializeStep self inst v
      (compileFieldToTuple field declaredName dg) =
      (if field.required then .error e else .ok v) := by
    unfold serializeStep compileFieldToTuple
    simp only [hcg, hps, Bool.false_eq_true, if_false, hmiss]
    rw [if_pos he]
  rw [hstep]
  cases hr : field.required <;> rfl

/-- Closing the C1 theorem at a concrete input: an optional `bar` field over
an object without a `bar` attribute leaves the output empty (`bar` absent,
not null), and the same field marked required propagates `AttributeError`. -/
theorem default_extractor_missing_value_witness :
    ({ required := false } : Field).custom_getter = none ∧
    serialize ⟨.vnone, false, none⟩ (.vdict [("foo", .vint 1)])
      ([] ++ [compileFieldToTuple { required := false } "bar" attrgetter]) =
      (if ({ required := false } : Field).required then
        .error PyErr.attributeError else .ok ([] : Dict)) ∧
    serialize ⟨.vnone, false, none⟩ (.vdict [("foo", .vint 1)])
      ([] ++ [compileFieldToTuple {} "bar" attrgetter]) =
      (if ({} : Field).required then
        .error PyErr.attributeError else .ok ([] : Dict)) ∧
    dictLookup ([] : Dict) "bar" = none :=
  ⟨rfl,
   default_extractor_missing_value ⟨.vnone, false, none⟩
     (.vdict [("foo", .vint 1)]) { required := false } "bar" attrgetter
     .attributeError [] [] rfl rfl (Or.inr rfl) rfl [] rfl,
   default_extractor_missing_value ⟨.vnone, false, none⟩
     (.vdict [("foo", .vint 1)]) {} "bar" attrgetter
     .attributeError [] [] rfl rfl (Or.inr rfl) rfl [] rfl,
   rfl⟩

/-- **C3**: a required field whose default-path extraction succeeds always
enters the call/transform stage and stores the (possibly invoked and
transformed) value under its output name — for every extracted value,
including the falsy ones (`None`, zero, `False`, the empty string), which
are never treated as absent. -/
theorem required_present_value_included (self : Serializer) (inst : Value)
    (f : CompiledField) (g : Value → Except PyErr Value) (r : Value) (v : Dict)
    (hps : f.pass_self = false) (hg : f.getter = .noSelf g)
    (hr : g inst = .ok r) (hreq : f.required = true) :
    serializeStep self inst v f =
      (match (if f.call then callVal r else .ok r) with
       | .error e => .error e
       | .ok r1 =>
         match (match f.to_value with
                | some tv => tv r1
                | none => .ok r1) with
         | .error e => .error e
         | .ok r2 => .ok (dictInsert v f.name r2)) ∧
    (∀ out, serializeStep self inst v f = .ok out →
      (dictLookup out f.name).isSome = true) := by
  have heq : serializeStep self inst v f =
      (match (if f.call then callVal r else .ok r) with
       | .error e => .error e
       | .ok r1 =>
         match (match f.to_value with
                | some tv => tv r1
                | none => .ok r1) with
         | .error e => .error e
         | .ok r2 => .ok (dictInsert v f.name r2)) := by
    unfold serializeStep
    simp only [hps, Bool.false_eq_true, if_false, hg, hr, hreq, Bool.true_or,
      if_true]
  refine ⟨heq, ?_⟩
  intro out hout
  rw [heq] at hout
  cases h1 : (if f.call then callVal r else Except.ok r) with
  | error e => simp [h1] at hout
  | ok r1 =>
    simp only [h1] at hout
    cases h2 : (match f.to_value with
                | some tv => tv r1
                | none => Except.ok r1) with
    | error e => simp [h2] at hout
    | ok r2 =>
      simp only [h2, Except.ok.injEq] at hout
      rw [← hout, dictLookup_dictInsert]
      simp

/-- Closing the C3 theorem at a concrete input: a required, called and
transformed field whose raw extracted value is a callable returning `0`
(falsy) still lands in the output. -/
theorem required_present_value_included_witness :
    serializeStep ⟨.vnone, false, none⟩ (.vdict [("n", .vfun (.vint 0))]) []
      ⟨"n", .noSelf (attrgetter "n"),
        some (fun x => .ok (.vlist [x])), true, true, false⟩ =
      .ok [("n", .vlist [.vint 0])] ∧
    (∀ out, serializeStep ⟨.vnone, false, none⟩
        (.vdict [("n", .vfun (.vint 0))]) []
        ⟨"n", .noSelf (attrgetter "n"),
          some (fun x => .ok (.vlist [x])), true, true, false⟩ = .ok out →
      (dictLookup out "n").isSome = true) :=
  ⟨(required_present_value_included ⟨.vnone, false, none⟩
      (.vdict [("n", .vfun (.vint 0))])
      ⟨"n", .noSelf (attrgetter "n"),
        some (fun x => .ok (.vlist [x])), true, true, false⟩
      (attrgetter "n") (.vfun (.vint 0)) [] rfl rfl rfl rfl).1,
   (required_present_value_included ⟨.vnone, false, none⟩
      (.vdict [("n", .vfun (.vint 0))])
      ⟨"n", .noSelf (attrgetter "n"),
        some (fun x => .ok (.vlist [x])), true, true, false⟩
      (attrgetter "n") (.vfun (.vint 0)) [] rfl rfl rfl rfl).2⟩

/-- **C9**: a field whose resolved extractor needs the schema instance is
executed by calling the getter with `(self, instance)` and storing the
result directly under the output name — no required/optional handling, no
callable invocation, no value transform — and any error the getter raises
propagates regardless of the `required` flag. -/
theorem pass_self_extractor_direct (self : Serializer) (inst : Value)
    (f : CompiledField) (g : Serializer → Value → Except PyErr Value)
    (v : Dict) (hps : f.pass_self = true) (hg : f.getter = .withSelf g) :
    serializeStep self inst v f =
      (match g self inst with
       | .ok r => .ok (dictInsert v f.name r)
       | .error e => .error e) ∧
    (∀ e, g self inst = .error e → serializeStep self inst v f = .error e) ∧
    (∀ r, g self inst = .ok r →
      serializeStep self inst v f = .ok (dictInsert v f.name r)) := by
  have heq : serializeStep self inst v f =
      (match g self inst with
       | .ok r => .ok (dictInsert v f.name r)
       | .error e => .error e) := by
    unfold serializeStep
    simp only [hps, if_true, hg]
  refine ⟨heq, ?_, ?_⟩
  · intro e he
    rw [heq, he]
  · intro r hr
    rw [heq, hr]

/-- Closing the C9 theorem at a concrete input: a `pass_self` field with a
`required=False`, `call=True`, transformed descriptor still stores the raw
custom-extractor result, and its error propagates. -/
theorem pass_self_extractor_direct_witness :
    serializeStep ⟨.vint 7, false, none⟩ (.vdict []) []
      ⟨"m", .withSelf (fun s _ => .ok s.inst),
        some (fun _ => .error .typeError), true, false, true⟩ =
      .ok [("m", .vint 7)] ∧
    serializeStep ⟨.vint 7, false, none⟩ (.vdict []) []
      ⟨"m2", .withSelf (fun _ _ => .error .typeError),
        none, false, false, true⟩ =
      .error .typeError :=
  ⟨(pass_self_extractor_direct ⟨.vint 7, false, none⟩ (.vdict [])
      ⟨"m", .withSelf (fun s _ => .ok s.inst),
        some (fun _ => .error .typeError), true, false, true⟩
      (fun s _ => .ok s.inst) [] rfl rfl).2.2 (.vint 7) rfl,
   (pass_self_extractor_direct ⟨.vint 7, false, none⟩ (.vdict [])
      ⟨"m2", .withSelf (fun _ _ => .error .typeError),
        none, false, false, true⟩
      (fun _ _ => .error .typeError) [] rfl rfl).2.1 .typeError rfl⟩

/-- **C10**: an optional (`required=False`) field whose default-path
extraction succeeds with the missing-value sentinel `None` stores `None`
under its output name — the key is present, not omitted — and the callable
invocation and value transform are skipped (the equation holds for every
`call` flag and every configured transform, neither of which is consulted). -/
theorem optional_none_value_present (self : Serializer) (inst : Value)
    (f : CompiledField) (g : Value → Except PyErr Value) (v : Dict)
    (hps : f.pass_self = false) (hg : f.getter = .noSelf g)
    (hr : g inst = .ok .vnone) (hreq : f.required = false) :
    serializeStep self inst v f = .ok (dictInsert v f.name .vnone) ∧
    dictLookup (dictInsert v f.name .vnone) f.name = some .vnone := by
  constructor
  · unfold serializeStep
    simp only [hps, Bool.false_eq_true, if_false, hg, hr, hreq]
    simp
  · rw [dictLookup_dictInsert]
    simp

/-- `ancestorLookup` finds a field exactly when some serializer class in the
chain declares it. -/
theorem ancestorLookup_isSome (mro : List PyClass) (n : String) :
    (ancestorLookup mro n).isSome =
      mro.any (fun c =>
        c.isSerializerBaseSubclass && (dictLookup c.field_map n).isSome) := by
  induction mro with
  | nil => rfl
  | cons c t ih =>
    rw [ancestorLookup, List.any_cons]
    cases ha : ancestorLookup t n with
    | some x =>
      rw [ha] at ih
      simp [Option.orElse, ← ih]
    | none =>
      rw [ha] at ih
      simp only [Option.orElse, Option.isSome_none] at ih ⊢
      rw [← ih, Bool.or_false]
      by_cases hsub : c.isSerializerBaseSubclass
      · simp [hsub]
      · simp [hsub]

/-- **C2**: the field map `_get_fields` builds for a schema type looks up
exactly as the spec describes — the type's own directly declared descriptor
if any, else the nearest ancestor's — so a name collision makes the more
derived declaration fully replace the more ancestral one; and the key set is
the union of the direct declarations and all serializer ancestors' field
maps. -/
theorem fieldMap_merge_refines_spec (direct : FieldMap)
    (mroRev : List PyClass) (n : String) (hd : keysNodup direct)
    (hm : ∀ c ∈ mroRev, keysNodup c.field_map) :
    dictLookup (getFields direct mroRev) n = specFieldLookup direct mroRev n ∧
    (dictLookup (getFields direct mroRev) n).isSome =
      ((dictLookup direct n).isSome ||
        mroRev.any (fun c =>
          c.isSerializerBaseSubclass && (dictLookup c.field_map n).isSome)) := by
  have h1 : dictLookup (getFields direct mroRev) n =
      specFieldLookup direct mroRev n := by
    unfold getFields specFieldLookup
    rw [dictLookup_dictUpdate _ direct n hd, dictLookup_mro_foldl mroRev [] n hm]
    cases dictLookup direct n with
    | some x => rfl
    | none =>
      simp only [Option.orElse, dictLookup_nil]
      cases ancestorLookup mroRev n <;> rfl
  refine ⟨h1, ?_⟩
  rw [h1]
  unfold specFieldLookup
  cases hdj : dictLookup direct n with
  | some x => simp [Option.orElse]
  | none =>
    simp only [Option.orElse, Option.isSome_none, Bool.false_or]
    exact ancestorLookup_isSome mroRev n

/-- Concrete schema data for the C2 witness: a grandparent declaring `a` and
`b`, a parent redeclaring `b`, a non-serializer class in the MRO, and a
direct redeclaration of `a`. -/
def c2Direct : FieldMap := [("a", { required := false })]

/-- The reversed MRO (most ancestral first) for the C2 witness. -/
def c2Mro : List PyClass :=
  [⟨true, [("a", {}), ("b", {})]⟩,
   ⟨false, [("zz", { call := true })]⟩,
   ⟨true, [("b", { call := true })]⟩]

/-- Closing the C2 theorem at concrete inputs: lookups of the collision
names `a` and `b` agree with the spec-side description. -/
theorem fieldMap_merge_refines_spec_witness :
    (dictLookup (getFields c2Direct c2Mro) "a" =
      specFieldLookup c2Direct c2Mro "a" ∧
     (dictLookup (getFields c2Direct c2Mro) "a").isSome =
      ((dictLookup c2Direct "a").isSome ||
        c2Mro.any (fun c =>
          c.isSerializerBaseSubclass &&
            (dictLookup c.field_map "a").isSome))) ∧
    (dictLookup (getFields c2Direct c2Mro) "b" =
      specFieldLookup c2Direct c2Mro "b" ∧
     (dictLookup (getFields c2Direct c2Mro) "b").isSome =
      ((dictLookup c2Direct "b").isSome ||
        c2Mro.any (fun c =>
          c.isSerializerBaseSubclass &&
            (dictLookup c.field_map "b").isSome))) :=
  ⟨fieldMap_merge_refines_spec c2Direct c2Mro "a" (by decide)
      (by
        intro c hc
        simp only [c2Mro, List.mem_cons, List.not_mem_nil, or_false] at hc
        rcases hc with rfl | rfl | rfl <;> decide),
   fieldMap_merge_refines_spec c2Direct c2Mro "b" (by decide)
      (by
        intro c hc
        simp only [c2Mro, List.mem_cons, List.not_mem_nil, or_false] at hc
        rcases hc with rfl | rfl | rfl <;> decide)⟩

/-- **C8**: executing with `many=true` maps the single-instance routine over
the collection in iteration order; for three sources `[a, b, c]` whose
individual serializations succeed, the result is exactly
`[output(a), output(b), output(c)]`. -/
theorem many_mode_order (fields : List CompiledField) (s : Serializer)
    (a b c : Value) (oa ob oc : Dict)
    (hmany : s.many = true) (hinst : s.inst = .vlist [a, b, c])
    (ha : serialize s a fields = .ok oa)
    (hb : serialize s b fields = .ok ob)
    (hc : serialize s c fields = .ok oc) :
    toValue fields s =
      (([a, b, c].mapM (fun o => serialize s o fields)).map Output.col) ∧
    toValue fields s = .ok (.col [oa, ob, oc]) := by
  have h1 : toValue fields s =
      (([a, b, c].mapM (fun o => serialize s o fields)).map Output.col) := by
    unfold toValue
    rw [hmany, if_pos rfl, hinst]
  refine ⟨h1, ?_⟩
  rw [h1]
  simp only [List.mapM_cons, List.mapM_nil, ha, hb, hc]
  rfl

/-- Closing the C8 theorem at concrete inputs: three one-key dicts serialize
to three output mappings in source order. -/
theorem many_mode_order_witness :
    toValue [⟨"k", .noSelf (itemgetter "k"), none, false, true, false⟩]
      ⟨.vlist [.vdict [("k", .vint 1)], .vdict [("k", .vint 2)],
        .vdict [("k", .vint 3)]], true, none⟩ =
      .ok (.col [[("k", .vint 1)], [("k", .vint 2)], [("k", .vint 3)]]) :=
  (many_mode_order [⟨"k", .noSelf (itemgetter "k"), none, false, true, false⟩]
    ⟨.vlist [.vdict [("k", .vint 1)], .vdict [("k", .vint 2)],
      .vdict [("k", .vint 3)]], true, none⟩
    (.vdict [("k", .vint 1)]) (.vdict [("k", .vint 2)])
    (.vdict [("k", .vint 3)])
    [("k", .vint 1)] [("k", .vint 2)] [("k", .vint 3)]
    rfl rfl rfl rfl rfl).2

/-- **C4**: the `data` property computes the output at most once.  Whenever
an access returns `(d, s2)`, the slot of `s2` holds `d`, every later access
— under any compiled plan whatsoever, so without re-running any extraction —
returns the very same `d` and leaves the state unchanged; a first access
(empty slot) obtains `d` from `to_value`, and an access to a filled slot
returns exactly the cached object. -/
theorem data_cached_once (fields : List CompiledField) (s : Serializer)
    (d : Output) (s2 : Serializer)
    (h : dataProp fields s = .ok (d, s2)) :
    s2.data_ = some d ∧
    (∀ fields2, dataProp fields2 s2 = .ok (d, s2)) ∧
    (s.data_ = none → toValue fields s = .ok d) ∧
    (∀ d0, s.data_ = some d0 → d = d0 ∧ s2 = s) := by
  unfold dataProp at h
  cases hs : s.data_ with
  | none =>
    rw [hs] at h
    cases htv : toValue fields s with
    | error e =>
      rw [htv] at h
      exact absurd h (by simp)
    | ok d2 =>
      rw [htv] at h
      simp only [Except.ok.injEq, Prod.mk.injEq] at h
      obtain ⟨hd, hs2⟩ := h
      subst hd
      subst hs2
      refine ⟨rfl, fun fields2 => rfl, fun _ => rfl, ?_⟩
      intro d0 hd0
      exact absurd hd0 (by simp)
  | some d0 =>
    rw [hs] at h
    simp only [Except.ok.injEq, Prod.mk.injEq] at h
    obtain ⟨hd, hs2⟩ := h
    subst hd
    subst hs2
    refine ⟨hs, ?_, ?_, ?_⟩
    · intro fields2
      unfold dataProp
      rw [hs]
    · intro hnone
      exact absurd hnone (by simp)
    · intro d1 hd1
      injection hd1 with h10
      exact ⟨h10, rfl⟩

/-- A one-field compiled plan for the C4 witness. -/
def c4Plan : List CompiledField :=
  [⟨"x", .noSelf (attrgetter "x"), none, false, true, false⟩]

/-- A freshly constructed serializer instance (empty `_data` slot). -/
def c4Start : Serializer := ⟨.vdict [("x", .vint 5)], false, none⟩

/-- The output the C4 witness computes. -/
def c4Out : Output := .one [("x", .vint 5)]

/-- The serializer state after the first `data` access. -/
def c4After : Serializer := ⟨.vdict [("x", .vint 5)], false, some c4Out⟩

/-- Closing the C4 theorem at a concrete input: a first access on an empty
slot, whose result then satisfies all four cached-access properties. -/
theorem data_cached_once_witness :
    c4After.data_ = some c4Out ∧
    (∀ fields2, dataProp fields2 c4After = .ok (c4Out, c4After)) ∧
    (c4Start.data_ = none → toValue c4Plan c4Start = .ok c4Out) ∧
    (∀ d0, c4Start.data_ = some d0 → c4Out = d0 ∧ c4After = c4Start) :=
  data_cached_once c4Plan c4Start c4Out c4After rfl

/-- Closing the C10 theorem at a concrete input: an optional field with
`call=True` and a transform that would reject `None` still emits
`{"x": None}`. -/
theorem optional_none_value_present_witness :
    serializeStep ⟨.vnone, false, none⟩ (.vdict [("x", .vnone)]) []
      ⟨"x", .noSelf (attrgetter "x"),
        some (fun _ => .error .typeError), true, false, false⟩ =
      .ok (dictInsert [] "x" .vnone) ∧
    dictLookup (dictInsert ([] : Dict) "x" Value.vnone) "x" =
      some Value.vnone :=
  optional_none_value_present ⟨.vnone, false, none⟩ (.vdict [("x", .vnone)])
    ⟨"x", .noSelf (attrgetter "x"),
      some (fun _ => .error .typeError), true, false, false⟩
    (attrgetter "x") [] rfl rfl rfl rfl

/-- **C6**: a schema bound to an external model with canonical fields
`["id","name","age"]`, an exclusion list `["age"]`, and no explicit
declarations compiles to exactly the fields `id` and `name`, in that order,
both in the field map and in the compiled plan. -/
theorem implicit_exclude_expansion :
    (serializerMetaNew [] []
      (some ⟨some (.django [⟨"id"⟩, ⟨"name"⟩, ⟨"age"⟩]), .noneF, some ["age"]⟩)
      attrgetter).map
        (fun p => (p.1.map Prod.fst, p.2.map (fun cf => cf.name))) =
      .ok (["id", "name"], ["id", "name"]) := by rfl

/-- **C5** (failing input): binding an external model and giving an explicit
inclusion list of field names makes `_get_implicit_fields` return the raw
name strings, and `_update_direct_fields` then reads `.name` off a string —
so schema definition raises `AttributeError` instead of compiling a plan
with those implicit fields. -/
theorem inclusion_list_definition_crashes :
    serializerMetaNew [] []
      (some ⟨some (.django [⟨"id"⟩, ⟨"name"⟩, ⟨"age"⟩]),
        .names ["id", "name"], none⟩)
      attrgetter = .error .attributeError := by rfl

/-- **C7**: each invalid `Meta` configuration is rejected while the schema
type is being defined, before any compiled plan is produced: a `Meta` with
no model (in particular one configuring only inclusion/exclusion lists);
both an inclusion and an exclusion list; neither of them although a model is
bound; and a bound model recognized by neither adapter probe. -/
theorem config_errors_at_definition_time :
    (∀ (mroRev : List PyClass) (direct : FieldMap)
      (dg : String → Value → Except PyErr Value)
      (fields : FieldsOpt) (exclude : Option (List String)),
      serializerMetaNew mroRev direct (some ⟨none, fields, exclude⟩) dg =
        .error (.runtimeError
          "If you specifiy a Meta class, you need to specify a model")) ∧
    (∀ (mroRev : List PyClass) (direct : FieldMap)
      (dg : String → Value → Except PyErr Value) (model : ModelRef)
      (fields : FieldsOpt) (exclude : Option (List String)),
      fields.truthy = true → excludeTruthy exclude = true →
      serializerMetaNew mroRev direct (some ⟨some model, fields, exclude⟩) dg =
        .error (.runtimeError "`fields` and `exclude` prohibit each other.")) ∧
    (∀ (mroRev : List PyClass) (direct : FieldMap)
      (dg : String → Value → Except PyErr Value) (model : ModelRef)
      (fields : FieldsOpt) (exclude : Option (List String)),
      fields.truthy = false → excludeTruthy exclude = false →
      serializerMetaNew mroRev direct (some ⟨some model, fields, exclude⟩) dg =
        .error (.runtimeError
          "You need to specifiy either `fields` or `exclude` in Meta")) ∧
    (∀ (mroRev : List PyClass) (direct : FieldMap)
      (dg : String → Value → Except PyErr Value)
      (fields : FieldsOpt) (exclude : Option (List String)),
      (fields.truthy = true ∧ excludeTruthy exclude = false) ∨
      (fields.truthy = false ∧ excludeTruthy exclude = true) →
      serializerMetaNew mroRev direct (some ⟨some .plain, fields, exclude⟩) dg =
        .error (.runtimeError
          "Cannot deduce your fields from your model declaration")) := by
  refine ⟨?_, ?_, ?_, ?_⟩
  · intro mroRev direct dg fields exclude
    rfl
  · intro mroRev direct dg model fields exclude ft et
    unfold serializerMetaNew metaProcess
    simp only [ft, et]
    simp
  · intro mroRev direct dg model fields exclude ff ef
    unfold serializerMetaNew metaProcess
    simp only [ff, ef]
    simp
  · intro mroRev direct dg fields exclude hone
    unfold serializerMetaNew metaProcess
    rcases hone with ⟨ft, ef⟩ | ⟨ff, et⟩
    · simp only [ft, ef]
      simp
    · simp only [ff, et]
      simp

/-- Closing the C7 theorem at concrete inputs: one concrete configuration
per failure mode. -/
theorem config_errors_at_definition_time_witness :
    (serializerMetaNew [] [] (some ⟨none, .names ["id"], none⟩) attrgetter =
      .error (.runtimeError
        "If you specifiy a Meta class, you need to specify a model")) ∧
    (serializerMetaNew [] []
      (some ⟨some (.django [⟨"id"⟩]), .names ["id"], some ["id"]⟩)
      attrgetter =
      .error (.runtimeError "`fields` and `exclude` prohibit each other.")) ∧
    (serializerMetaNew [] []
      (some ⟨some (.django [⟨"id"⟩]), .noneF, none⟩) attrgetter =
      .error (.runtimeError
        "You need to specifiy either `fields` or `exclude` in Meta")) ∧
    (serializerMetaNew [] [] (some ⟨some .plain, .allF, none⟩) attrgetter =
      .error (.runtimeError
        "Cannot deduce your fields from your model declaration")) :=
  ⟨config_errors_at_definition_time.1 [] [] attrgetter (.names ["id"]) none,
   config_errors_at_definition_time.2.1 [] [] attrgetter (.django [⟨"id"⟩])
     (.names ["id"]) (some ["id"]) rfl rfl,
   config_errors_at_definition_time.2.2.1 [] [] attrgetter (.django [⟨"id"⟩])
     .noneF none rfl rfl,
   config_errors_at_definition_time.2.2.2 [] [] attrgetter .allF none
     (Or.inl ⟨rfl, rfl⟩)⟩

end Serpy
